import Mathlib

/-!
Verification development for the content-extraction and normalization engine
of the scraped-article pipeline (TypeScript sources: the generic cheerio
pipeline `processArticleHtml` / `processPaging` / `findValidMediaUrl` /
`normalizeImages` / `unwrapImgur` and the rule-driven `baseExtract` of
`specified_scraper.ts` together with its Deno variants).

The HTML document tree is shallowly embedded as a mutual inductive
(`HNode` / `HForest`).  Pure per-element logic (media-extension tests, lazy
attribute scanning, attribute updates, tag construction) is translated
directly from the source.  Genuinely external libraries that the source
calls into (the WHATWG `URL` constructor, the cheerio CSS-selector engine,
`DOMPurify.sanitize`, `js-beautify`, the network fetcher and `cheerio.load`
applied to freshly fetched pages, and the JS `RegExp` engine for
rule-supplied patterns) are modelled as explicit function parameters
gathered in environment records; patterns and arguments handed to them are
computed by the embedded code exactly as the source computes them.

String primitives are re-implemented on `List Char` so that every
definition evaluates inside the kernel (JS `trim`, `toLowerCase`,
`startsWith`, `endsWith`, substring containment, whitespace splitting).
-/

/-- JS whitespace test used by trim / \s. -/
def wsChar (c : Char) : Bool := c.isWhitespace

/-- Lower-casing, JS String.prototype.toLowerCase on ASCII. -/
def lowerStr (s : String) : String := String.mk (s.data.map Char.toLower)

def trimList (l : List Char) : List Char :=
  ((l.dropWhile wsChar).reverse.dropWhile wsChar).reverse

/-- JS String.prototype.trim. -/
def trimStr (s : String) : String := String.mk (trimList s.data)

def startsList : List Char → List Char → Bool
  | [], _ => true
  | _ :: _, [] => false
  | p :: ps, c :: cs => p = c && startsList ps cs

def hasSubList (pat : List Char) : List Char → Bool
  | [] => pat.isEmpty
  | c :: cs => startsList pat (c :: cs) || hasSubList pat cs

def endsList (pat l : List Char) : Bool := startsList pat.reverse l.reverse

/-- JS s.startsWith(pre). -/
def strStarts (s pre : String) : Bool := startsList pre.data s.data

/-- JS s.includes(pat). -/
def strContains (s pat : String) : Bool := hasSubList pat.data s.data

/-- JS s.endsWith(pat). -/
def strEnds (s pat : String) : Bool := endsList pat.data s.data

/-- s.trim().replace of all whitespace by nothing (source: `replace(/\s+/g, "")`
applied after trim in the toFullURL pass). -/
def stripAllWS (s : String) : String := String.mk (s.data.filter (fun c => !wsChar c))

def splitWSGo : List Char → List Char → List String
  | acc, [] => if acc.isEmpty then [] else [String.mk acc.reverse]
  | acc, c :: cs =>
    if wsChar c then
      if acc.isEmpty then splitWSGo [] cs
      else String.mk acc.reverse :: splitWSGo [] cs
    else splitWSGo (c :: acc) cs

/-- Split on whitespace runs, dropping empty tokens (used for HTML class lists). -/
def splitWS (s : String) : List String := splitWSGo [] s.data

/-- Strip trailing slashes: source `replace(/\/+$/, "")` in the toFullURL pass. -/
def rstripSlashes (s : String) : String :=
  String.mk ((s.data.reverse.dropWhile (fun c => c = '/')).reverse)

/-- Strip leading slashes: source `replace(/^\/+/, "")` in the toFullURL pass. -/
def lstripSlashes (s : String) : String := String.mk (s.data.dropWhile (fun c => c = '/'))

/-- Test for the regex `^https?:\/\//i`. -/
def isAbsHttp (s : String) : Bool :=
  strStarts (lowerStr s) "http://" || strStarts (lowerStr s) "https://"

/-- Media-extension test with optional query string: regex
`\.(e1|e2|...)(\?.*)?$` case-insensitively.  A string matches iff it either
ends with `.ext` or contains `.ext?` somewhere, for one of the extensions. -/
def extTestQ (exts : List String) (s : String) : Bool :=
  let t := (lowerStr s).data
  exts.any (fun e => endsList ("." ++ e).data t || hasSubList ("." ++ e ++ "?").data t)

/-- MEDIA_REGEX of utils/config.ts: `/\.(jpe?g|png|gif|webp|mp4|webm|mov|m4v)(\?.*)?$/i`. -/
def mediaTest (s : String) : Bool :=
  extTestQ ["jpg", "jpeg", "png", "gif", "webp", "mp4", "webm", "mov", "m4v"] s

/-- VIDEO_REGEX of utils/config.ts: `/\.(mp4|webm|mov|m4v)$/i` (no query part). -/
def videoTestCfg (s : String) : Bool :=
  ["mp4", "webm", "mov", "m4v"].any (fun e => strEnds (lowerStr s) ("." ++ e))

/-- Video test with query part, `/\.(mp4|webm|mov|m4v)(\?.*)?$/i`
(transVisibleImage pass of baseExtract, and the Deno variants). -/
def videoTestQ (s : String) : Bool := extTestQ ["mp4", "webm", "mov", "m4v"] s

/-- Image test with query part, `/\.(jpe?g|png|gif|webp)(\?.*)?$/i`
(transVisibleImage pass of baseExtract). -/
def imgTestQ (s : String) : Bool := extTestQ ["jpg", "jpeg", "png", "gif", "webp"] s

/-- Extra video-extension check of unwrapAnchoredMedia:
`url.toLowerCase().match(/\.(mp4|webm|mov|ogv)$/)`. -/
def videoTestOgv (s : String) : Bool :=
  ["mp4", "webm", "mov", "ogv"].any (fun e => strEnds (lowerStr s) ("." ++ e))

mutual
/-- A node of the in-memory document tree built by cheerio: an element with
tag name, attribute list (document order, first binding wins on lookup) and
children, or a text node. -/
inductive HNode where
  | text (s : String)
  | elem (tag : String) (attrs : List (String × String)) (children : HForest)
/-- A sibling list of document nodes. -/
inductive HForest where
  | nil
  | cons (hd : HNode) (tl : HForest)
end

def HForest.append : HForest → HForest → HForest
  | .nil, g => g
  | .cons n tl, g => .cons n (tl.append g)

def HForest.ofList : List HNode → HForest
  | [] => .nil
  | n :: r => .cons n (HForest.ofList r)

def HForest.toList : HForest → List HNode
  | .nil => []
  | .cons n tl => n :: tl.toList

/-- Attribute lookup, first binding wins (cheerio `$el.attr(name)`). -/
def lookupAttr : List (String × String) → String → Option String
  | [], _ => none
  | (k, v) :: r, q => if k = q then some v else lookupAttr r q

def HNode.attr : HNode → String → Option String
  | .text _, _ => none
  | .elem _ a _, q => lookupAttr a q

/-- cheerio `$el.attr(name, value)`: update in place, or append when absent. -/
def setAttr : List (String × String) → String → String → List (String × String)
  | [], k, v => [(k, v)]
  | (k0, v0) :: r, k, v => if k0 = k then (k, v) :: r else (k0, v0) :: setAttr r k v

/-- cheerio `$el.attr({...})`: upsert each given pair in order. -/
def setAttrs (a : List (String × String)) (kvs : List (String × String)) :
    List (String × String) :=
  kvs.foldl (fun acc kv => setAttr acc kv.1 kv.2) a

def HNode.tagIs (t : String) : HNode → Bool
  | .text _ => false
  | .elem t0 _ _ => t0 = t

/-- Class-selector test: the class attribute, split on whitespace, contains c. -/
def HNode.hasClass (c : String) : HNode → Bool := fun n =>
  match n.attr "class" with
  | some v => (splitWS v).contains c
  | none => false

mutual
/-- Does any node of the tree (the node itself or a descendant) satisfy p. -/
def HNode.anyN (p : HNode → Bool) : HNode → Bool
  | .text s => p (.text s)
  | .elem t a c => p (.elem t a c) || HForest.anyF p c
def HForest.anyF (p : HNode → Bool) : HForest → Bool
  | .nil => false
  | .cons n tl => HNode.anyN p n || HForest.anyF p tl
end

mutual
/-- Number of nodes of the tree satisfying p. -/
def HNode.cntN (p : HNode → Bool) : HNode → Nat
  | .text s => if p (.text s) then 1 else 0
  | .elem t a c => (if p (.elem t a c) then 1 else 0) + HForest.cntF p c
def HForest.cntF (p : HNode → Bool) : HForest → Nat
  | .nil => 0
  | .cons n tl => HNode.cntN p n + HForest.cntF p tl
end

mutual
/-- First node (preorder / document order) satisfying p. -/
def HNode.firstN (p : HNode → Bool) : HNode → Option HNode
  | .text s => if p (.text s) then some (.text s) else none
  | .elem t a c =>
    if p (.elem t a c) then some (.elem t a c) else HForest.firstF p c
def HForest.firstF (p : HNode → Bool) : HForest → Option HNode
  | .nil => none
  | .cons n tl =>
    match HNode.firstN p n with
    | some m => some m
    | none => HForest.firstF p tl
end

/-- cheerio `$el.find(sel).length > 0`: a proper descendant satisfies p. -/
def HNode.hasDesc (p : HNode → Bool) : HNode → Bool
  | .text _ => false
  | .elem _ _ c => HForest.anyF p c

/-- cheerio `$el.find(sel).first()`: first proper descendant satisfying p. -/
def HNode.firstDesc (p : HNode → Bool) : HNode → Option HNode
  | .text _ => none
  | .elem _ _ c => HForest.firstF p c

mutual
/-- Top-down per-node replacement: f n = some fr means n is replaced by the
forest fr (this is cheerio `$(sel).each` + `replaceWith`: replacement output
is not rescanned, detached subtrees are dropped); f n = none keeps n and
recurses into its children. -/
def HNode.onKids (f : HNode → Option HForest) : HNode → HNode
  | .text s => .text s
  | .elem t a c => .elem t a (HForest.transform f c)
def HForest.transform (f : HNode → Option HForest) : HForest → HForest
  | .nil => .nil
  | .cons n tl =>
    match f n with
    | some fr => fr.append (HForest.transform f tl)
    | none => .cons (HNode.onKids f n) (HForest.transform f tl)
end

/-- Removal of every node satisfying p (cheerio `$(sel).remove()`). -/
def HForest.removeAll (p : HNode → Bool) (fr : HForest) : HForest :=
  HForest.transform (fun n => if p n then some .nil else none) fr

mutual
/-- Attribute rewriting on every element of the tree, g receives tag and
attribute list (used for passes that only mutate attributes in place). -/
def HNode.mapAttrs (g : String → List (String × String) → List (String × String)) :
    HNode → HNode
  | .text s => .text s
  | .elem t a c => .elem t (g t a) (HForest.mapAttrs g c)
def HForest.mapAttrs (g : String → List (String × String) → List (String × String)) :
    HForest → HForest
  | .nil => .nil
  | .cons n tl => .cons (HNode.mapAttrs g n) (HForest.mapAttrs g tl)
end

mutual
/-- Rewrite the first node (document order) satisfying p with g; the Bool
reports whether a match was found. -/
def HNode.mapFirst (p : HNode → Bool) (g : HNode → HNode) : HNode → HNode × Bool
  | .text s => if p (.text s) then (g (.text s), true) else (.text s, false)
  | .elem t a c =>
    if p (.elem t a c) then (g (.elem t a c), true)
    else
      let r := HForest.mapFirst p g c
      (.elem t a r.1, r.2)
def HForest.mapFirst (p : HNode → Bool) (g : HNode → HNode) : HForest → HForest × Bool
  | .nil => (.nil, false)
  | .cons n tl =>
    let r := HNode.mapFirst p g n
    if r.2 then (.cons r.1 tl, true)
    else
      let s := HForest.mapFirst p g tl
      (.cons n s.1, s.2)
end

mutual
/-- Concatenated text content of a tree (cheerio `$el.text()`). -/
def HNode.textContent : HNode → String
  | .text s => s
  | .elem _ _ c => HForest.textContent c
def HForest.textContent : HForest → String
  | .nil => ""
  | .cons n tl => HNode.textContent n ++ HForest.textContent tl
end

def renderAttrs : List (String × String) → String
  | [] => ""
  | (k, v) :: r => " " ++ k ++ "=\"" ++ v ++ "\"" ++ renderAttrs r

mutual
/-- HTML serialization of a node (cheerio rendering; entity-encoding elided). -/
def HNode.render : HNode → String
  | .text s => s
  | .elem t a c => "<" ++ t ++ renderAttrs a ++ ">" ++ HForest.render c ++ "</" ++ t ++ ">"
def HForest.render : HForest → String
  | .nil => ""
  | .cons n tl => HNode.render n ++ HForest.render tl
end

/-- cheerio `$el.html()`: serialization of the children; null for a text node
(the caller coalesces that to `""`). -/
def HNode.innerHtml : HNode → String
  | .text _ => ""
  | .elem _ _ c => HForest.render c

/-- cheerio `$el.children()`: element children only. -/
def HForest.elemKids : HForest → HForest
  | .nil => .nil
  | .cons (.text _) tl => HForest.elemKids tl
  | .cons (.elem t a c) tl => .cons (.elem t a c) (HForest.elemKids tl)

mutual
/-- Apply h to every sibling list of the tree (children lists, bottom-up). -/
def HNode.onLists (h : HForest → HForest) : HNode → HNode
  | .text s => .text s
  | .elem t a c => .elem t a (h (HForest.onLists h c))
def HForest.onLists (h : HForest → HForest) : HForest → HForest
  | .nil => .nil
  | .cons n tl => .cons (HNode.onLists h n) (HForest.onLists h tl)
end

/-- Apply h to every sibling list of a document, including the root list. -/
def docOnLists (h : HForest → HForest) (d : HForest) : HForest := h (HForest.onLists h d)

def HNode.kids : HNode → HForest
  | .text _ => .nil
  | .elem _ _ c => c

/-- Direct-children test only (cheerio `$el.contents()` iteration). -/
def HForest.anyTop (p : HNode → Bool) : HForest → Bool
  | .nil => false
  | .cons n tl => p n || HForest.anyTop p tl

def isText : HNode → Bool
  | .text _ => true
  | .elem _ _ _ => false

/-- appConfig.lazyAttrs default of utils/config.ts. -/
def LAZY_ATTRS : List String := ["data-src", "data-lazy-src", "data-original"]

/-- The lazy-attribute loop of findValidMediaUrl (smart pipeline): for each
configured attribute in order, return its trimmed value as soon as the value
is truthy and matches MEDIA_REGEX. -/
def lazyScan (n : HNode) : List String → Option String
  | [] => none
  | a :: rest =>
    match n.attr a with
    | some v => if v != "" && mediaTest (trimStr v) then some (trimStr v) else lazyScan n rest
    | none => lazyScan n rest

/-- findValidMediaUrl of the generic pipeline (html-processor service): lazy
attributes first, then the direct src (excluding data:image URIs); empty
string when nothing resolves. -/
def findValidMediaUrl (n : HNode) : String :=
  match lazyScan n LAZY_ATTRS with
  | some u => u
  | none =>
    match n.attr "src" with
    | some s =>
      if s != "" && mediaTest (trimStr s) && !strStarts s "data:image" then trimStr s else ""
    | none => ""

/-- findValidMediaUrl of the part_010 Deno variant: only the FIRST non-empty
lazy attribute value is tested against the media pattern
(`LAZY.map(k => attr(k)?.trim()).find(Boolean) || ""`). -/
def findValidMediaUrlP10 (n : HNode) : String :=
  let lazySrc :=
    ((LAZY_ATTRS.filterMap (fun k => (n.attr k).map trimStr)).find? (fun v => v != "")).getD ""
  if mediaTest lazySrc then lazySrc
  else
    let src := ((n.attr "src").map trimStr).getD ""
    if mediaTest src && !strStarts src "data:image" then src else ""

/-- Source-URL resolution of normalizeImages in the part_009 Deno variant:
the direct trimmed src wins unless it is a dummy (empty, data:, "#", or
about:), and only then the first non-empty lazy attribute is used. -/
def p9ImgResolvedSrc (n : HNode) : String :=
  let src := ((n.attr "src").map trimStr).getD ""
  let isDummy := src == "" || strStarts src "data:" || src == "#" || strStarts src "about:"
  if isDummy then
    ((LAZY_ATTRS.filterMap (fun k => (n.attr k).map trimStr)).find? (fun v => v != "")).getD ""
  else src

/-- External collaborators of the generic pipeline: the WHATWG URL library
(resolution, hostname, query-parameter values), the cheerio selector engine
(none = the selector expression is invalid and the engine throws), the
injected page fetcher (none = null result) and cheerio.load for fetched
pagination pages. -/
structure PipeEnv where
  resolveUrl : String → String → Option String
  hostname : String → Option String
  queryVals : String → Option (List String)
  sel : String → Option (HNode → Bool)
  fetchHtml : String → Option String
  parseHtml : String → HForest

/-- absolutizePaths: one attribute of one element, per the forEach body. -/
def absolutizeAttr (resolve : String → String → Option String) (pageUrl : String)
    (attrs : List (String × String)) (a : String) : List (String × String) :=
  match lookupAttr attrs a with
  | none => attrs
  | some v =>
    if v == "" || strStarts v "javascript:" || strStarts v "#" then attrs
    else
      let trimmed := trimStr v
      if isAbsHttp trimmed then attrs
      else
        match resolve trimmed pageUrl with
        | some abs => setAttr attrs a abs
        | none => attrs

/-- absolutizePaths of the generic pipeline: rewrite src then href of every
element against the page URL. -/
def absolutizePathsM (E : PipeEnv) (pageUrl : String) (d : HForest) : HForest :=
  HForest.mapAttrs
    (fun _t attrs =>
      absolutizeAttr E.resolveUrl pageUrl (absolutizeAttr E.resolveUrl pageUrl attrs "src") "href")
    d

def isArticleContentsDiv (n : HNode) : Bool :=
  n.tagIs "div" && (n.attr "id" == some "article-contents")

def isArticleBodyDiv (n : HNode) : Bool := n.tagIs "div" && n.hasClass "article-body"

def isPNext (n : HNode) : Bool := n.tagIs "p" && n.hasClass "next"

def isNavA (n : HNode) : Bool := n.tagIs "a" && n.hasClass "pagingNav"

mutual
/-- Selector 'p.next > a.pagingNav': an a.pagingNav whose parent is p.next;
the Bool argument records whether the parent matched p.next. -/
def HNode.firstNav : Bool → HNode → Option HNode
  | _, .text _ => none
  | inP, .elem t a c =>
    if inP && isNavA (.elem t a c) then some (.elem t a c)
    else HForest.firstNav (isPNext (.elem t a c)) c
def HForest.firstNav : Bool → HForest → Option HNode
  | _, .nil => none
  | inP, .cons n tl =>
    match HNode.firstNav inP n with
    | some m => some m
    | none => HForest.firstNav inP tl
end

/-- `$('p.next > a.pagingNav').first()`. -/
def firstPagingNav (d : HForest) : Option HNode := HForest.firstNav false d

/-- The next-page link state: none = no link element; some h = link present
with href attribute h (itself optional). -/
def navHref (d : HForest) : Option (Option String) :=
  (firstPagingNav d).map (fun n => n.attr "href")

/-- checkPagingContents: div#article-contents, div.article-body and
p.next > a.pagingNav must all be present. -/
def checkPagingContents (d : HForest) : Bool :=
  HForest.anyF isArticleContentsDiv d && HForest.anyF isArticleBodyDiv d &&
    (firstPagingNav d).isSome

def isMainArticleBody (n : HNode) : Bool := isArticleContentsDiv n || isArticleBodyDiv n

/-- `next$('div#article-contents, div.article-body').first().children()`:
element children of the first article body of a fetched page (empty when
that page has no body container). -/
def articleBodyKids (d : HForest) : HForest :=
  match HForest.firstF isMainArticleBody d with
  | some (.elem _ _ c) => HForest.elemKids c
  | _ => .nil

/-- Outcome of the processPaging while-loop.  The source loop is unbounded,
so it is run on fuel: fuelOut means the loop has not terminated within the
given number of iterations; threw models an exception escaping from the
(uncaught) `new URL(href, currentUrl)` constructor. -/
inductive PagingOut where
  | ok (acc : HForest) (fetches : Nat)
  | threw
  | fuelOut

/-- The processPaging while-loop: while a next link is present, break on a
missing/empty href, resolve it, fetch it (break on null/empty), parse the
fetched page, accumulate its article-body children, advance to its next
link.  `fetches` counts fetchHtml calls. -/
def pagingLoop (E : PipeEnv) :
    Nat → Option (Option String) → String → HForest → Nat → PagingOut
  | _, none, _, acc, cnt => .ok acc cnt
  | _, some none, _, acc, cnt => .ok acc cnt
  | fuel, some (some h), cur, acc, cnt =>
    if h = "" then .ok acc cnt
    else
      match E.resolveUrl h cur with
      | none => .threw
      | some url =>
        match fuel with
        | 0 => .fuelOut
        | fuel2 + 1 =>
          match E.fetchHtml url with
          | none => .ok acc (cnt + 1)
          | some html =>
            if html = "" then .ok acc (cnt + 1)
            else
              let nd := E.parseHtml html
              pagingLoop E fuel2 (navHref nd) url (acc.append (articleBodyKids nd)) (cnt + 1)

/-- Post-loop append: all collected content is appended to the first main
article body of the current document (dropped if none exists). -/
def appendToMainBody (d : HForest) (contents : HForest) : HForest :=
  (HForest.mapFirst isMainArticleBody
    (fun n =>
      match n with
      | .elem t a c => .elem t a (c.append contents)
      | m => m)
    d).1

def isInnerPager (n : HNode) : Bool := n.tagIs "div" && n.hasClass "article-inner-pager"

/-- processPaging of the generic pipeline, on fuel (none = the loop threw or
did not terminate within fuel iterations). -/
def processPagingM (E : PipeEnv) (fuel : Nat) (d : HForest) (pageUrl : String) :
    Option HForest :=
  match pagingLoop E fuel (navHref d) pageUrl .nil 0 with
  | .ok acc _ => some (HForest.removeAll isInnerPager (appendToMainBody d acc))
  | _ => none

/-- removeScripts: drop scripts without src, scripts whose src hostname fails
to parse, and scripts from non-allowlisted hosts. -/
def removeScriptsM (E : PipeEnv) (allowHosts : List String) (d : HForest) : HForest :=
  HForest.transform
    (fun n =>
      if n.tagIs "script" then
        match n.attr "src" with
        | none => some .nil
        | some src =>
          if src == "" then some .nil
          else
            match E.hostname (trimStr src) with
            | none => some .nil
            | some h => if allowHosts.contains h then none else some .nil
      else none)
    d

/-- One iteration of removeSelectors: invalid selector expressions are
caught, logged and skipped; valid ones remove all their matches. -/
def removeSelOne (E : PipeEnv) (d : HForest) (s : String) : HForest :=
  match E.sel s with
  | none => d
  | some p => HForest.removeAll p d

/-- removeSelectors of the generic pipeline: selectors applied in listed
order. -/
def removeSelectorsM (E : PipeEnv) (sels : List String) (d : HForest) : HForest :=
  sels.foldl (removeSelOne E) d

/-- First match of the regex `imgur\.com\/([a-zA-Z0-9]{5,})`. -/
def imgurIdScan : List Char → Option String
  | [] => none
  | c :: cs =>
    if startsList "imgur.com/".data (c :: cs) then
      let run := (List.drop 10 (c :: cs)).takeWhile (fun ch => ch.isAlphanum)
      if 5 ≤ run.length then some (String.mk run) else imgurIdScan cs
    else imgurIdScan cs

/-- createImgurImgTag of the generic pipeline.  Note the `.jpeg` extension. -/
def createImgurImgTagM (imgId : String) : HNode :=
  .elem "img"
    [("src", "https://i.imgur.com/" ++ imgId ++ ".jpeg"),
     ("alt", "imgur ID:" ++ imgId ++ " image"),
     ("loading", "lazy"),
     ("referrerpolicy", "no-referrer"),
     ("style", "max-width:100%;height:auto;display:block"),
     ("class", "my-formatted")]
    .nil

/-- unwrapImgur of the generic pipeline: iframe embeds (id extracted by
regex from the src) first, then blockquote.imgur-embed-pub[data-id] embeds
with a non-empty trimmed id; each is replaced by createImgurImgTag. -/
def unwrapImgurM (d : HForest) : HForest :=
  let d1 :=
    HForest.transform
      (fun n =>
        if n.tagIs "iframe" then
          match n.attr "src" with
          | some src =>
            if strContains src "imgur.com" then
              match imgurIdScan src.data with
              | some imgId => some (.cons (createImgurImgTagM imgId) .nil)
              | none => none
            else none
          | none => none
        else none)
      d
  HForest.transform
    (fun n =>
      if n.tagIs "blockquote" && n.hasClass "imgur-embed-pub" && (n.attr "data-id").isSome then
        let imgId := (n.attr "data-id").getD ""
        if imgId != "" && trimStr imgId != "" then
          some (.cons (createImgurImgTagM (trimStr imgId)) .nil)
        else none
      else none)
    d1

def isMediaEl (n : HNode) : Bool := n.tagIs "img" || n.tagIs "video" || n.tagIs "source"

/-- URL accumulation of unwrapAnchoredMedia for one matched element: for
anchors try media URLs in query-string values, then the href itself, then
the first nested media element, then the trimmed text content; for p /
div.wp-video elements without significant direct text, the first nested
media element. -/
def anchoredUrl (E : PipeEnv) (n : HNode) : String :=
  if n.tagIs "a" then
    let href := (n.attr "href").getD ""
    let u1 :=
      match E.queryVals href with
      | some vals =>
        ((vals.find? (fun v => strStarts (lowerStr v) "http" && mediaTest v)).getD "")
      | none => ""
    let u2 := if u1 == "" && mediaTest href then href else u1
    let u3 :=
      if u2 == "" then
        match n.firstDesc isMediaEl with
        | some m => findValidMediaUrl m
        | none => u2
      else u2
    if u3 == "" then
      let tx := trimStr n.textContent
      if strStarts (lowerStr tx) "http" && mediaTest tx then tx else u3
    else u3
  else
    let hasSig :=
      HForest.anyTop
        (fun m =>
          match m with
          | .text s => trimStr s != ""
          | .elem _ _ _ => false)
        n.kids
    if hasSig then ""
    else
      match n.firstDesc isMediaEl with
      | some m => findValidMediaUrl m
      | none => ""

/-- The video tag emitted by unwrapAnchoredMedia / normalizeImages. -/
def pipeVideoTag (url : String) : HNode :=
  .elem "video"
    [("src", url), ("controls", ""), ("playsinline", ""),
     ("style", "width:100%;height:auto;display:block;"),
     ("class", "my-formatted"), ("loading", "lazy"), ("referrerpolicy", "no-referrer")]
    .nil

/-- The img tag emitted by unwrapAnchoredMedia. -/
def pipeImgTag (url : String) : HNode :=
  .elem "img"
    [("src", url), ("loading", "lazy"), ("referrerpolicy", "no-referrer"),
     ("style", "max-width:100%;height:auto;display:block"), ("class", "my-formatted")]
    .nil

/-- unwrapAnchoredMedia of the generic pipeline: a / p / div.wp-video
elements (skipping any containing an iframe) are replaced by a canonical
video or img tag when a media URL resolves; afterwards video:has(source)
elements without src are given the first source child's src and emptied. -/
def unwrapAnchoredMediaM (E : PipeEnv) (d : HForest) : HForest :=
  let d1 :=
    HForest.transform
      (fun n =>
        if n.tagIs "a" || n.tagIs "p" || (n.tagIs "div" && n.hasClass "wp-video") then
          if n.hasDesc (fun m => m.tagIs "iframe") then none
          else
            let url := anchoredUrl E n
            if url != "" && mediaTest url then
              if videoTestCfg url || videoTestOgv url then
                some (.cons (pipeVideoTag url) .nil)
              else some (.cons (pipeImgTag url) .nil)
            else none
        else none)
      d
  HForest.transform
    (fun n =>
      if n.tagIs "video" && n.hasDesc (fun m => m.tagIs "source") then
        match n with
        | .elem t a _ =>
          if (lookupAttr a "src").getD "" != "" then none
          else
            match n.firstDesc (fun m => m.tagIs "source" && (m.attr "src").isSome) with
            | some sEl =>
              let src := ((sEl.attr "src").map trimStr).getD ""
              if src != "" then
                some (.cons
                  (.elem t
                    (setAttrs a
                      [("src", src), ("controls", ""), ("playsinline", ""),
                       ("style", "width:100%;height:auto;display:block;"),
                       ("class", "my-formatted")])
                    .nil)
                  .nil)
              else none
            | none => none
        | .text _ => none
      else none)
    d1

/-- normalizeIframes: iframes with src from allowlisted hosts (except
platform.twitter.com) receive the mobile sizing attributes. -/
def normalizeIframesM (E : PipeEnv) (allowHosts : List String) (d : HForest) : HForest :=
  HForest.mapAttrs
    (fun t attrs =>
      if t == "iframe" && (lookupAttr attrs "src").isSome then
        let src := (lookupAttr attrs "src").getD ""
        if src == "" then attrs
        else
          match E.hostname (trimStr src) with
          | none => attrs
          | some h =>
            if h != "" && allowHosts.contains h then
              if h == "platform.twitter.com" then attrs
              else
                setAttrs attrs
                  [("width", "100%"), ("height", "auto"),
                   ("style", "aspect-ratio: 16 / 9; width: 100%; height: auto;")]
            else attrs
      else attrs)
    d

/-- The selector img:not(.my-formatted) of normalizeImages: the marker
class excludes already-normalized images. -/
def isUnformattedImg (n : HNode) : Bool := n.tagIs "img" && !n.hasClass "my-formatted"

/-- Per-element body of normalizeImages. -/
def normalizeImgF : HNode → Option HForest := fun n =>
  if isUnformattedImg n then
    let src := findValidMediaUrl n
    if src == "" then some .nil
    else if videoTestCfg src then some (.cons (pipeVideoTag src) .nil)
    else
      match n with
      | .elem t a c =>
        some (.cons
          (.elem t
            (setAttrs a
              [("src", src), ("loading", "lazy"), ("referrerpolicy", "no-referrer"),
               ("style", "max-width:100%;height:auto;display:block"),
               ("class", "my-formatted")])
            c)
          .nil)
      | .text _ => none
  else none

/-- normalizeImages of the generic pipeline: every img without the
my-formatted marker class is resolved via findValidMediaUrl; unresolvable
images are removed, video URLs become canonical video tags, others get the
canonical attributes plus the marker class set in place. -/
def normalizeImagesM (d : HForest) : HForest :=
  HForest.transform normalizeImgF d

/-- cleanupEmptyTags: p elements with no visible text and no media
descendants are removed. -/
def cleanupEmptyTagsM (d : HForest) : HForest :=
  HForest.removeAll
    (fun n =>
      n.tagIs "p" && trimStr n.textContent == "" &&
        !n.hasDesc
          (fun m =>
            m.tagIs "a" || m.tagIs "img" || m.tagIs "video" || m.tagIs "iframe" ||
              m.tagIs "input"))
    d

def isBr (n : HNode) : Bool := n.tagIs "br"

/-- Keep/remove decision within one br run of n br elements (cheerio .next()
skips text siblings, so the run counts br elements through interleaved text,
and the removal loop deletes the (n - max) brs following the first one). -/
def segFilter (n maxC : Nat) : Nat → List HNode → List HNode
  | _, [] => []
  | i, x :: xs =>
    if isBr x then
      (if i = 0 || n - maxC + 1 ≤ i then [x] else []) ++ segFilter n maxC (i + 1) xs
    else x :: segFilter n maxC i xs

/-- Net effect of collapseExcessiveBrs on one run of brs. -/
def collapseSeg (maxC : Nat) (seg : List HNode) : List HNode :=
  let n := (seg.filter isBr).length
  if n ≤ maxC then seg else segFilter n maxC 0 seg

/-- Sibling-list scan of collapseExcessiveBrs: runs start at a br and extend
over subsequent br/text siblings. -/
def collapseAux (maxC : Nat) (run : List HNode) : List HNode → List HNode
  | [] => collapseSeg maxC run.reverse
  | x :: xs =>
    if run.isEmpty then
      if isBr x then collapseAux maxC [x] xs
      else x :: collapseAux maxC [] xs
    else
      if isBr x || isText x then collapseAux maxC (x :: run) xs
      else collapseSeg maxC run.reverse ++ (x :: collapseAux maxC [] xs)

/-- collapseExcessiveBrs with the default maxConsecutive = 2, applied to
every sibling list of the document. -/
def collapseBrsM (d : HForest) : HForest :=
  docOnLists (fun fr => HForest.ofList (collapseAux 2 [] fr.toList)) d

/-- The reset stylesheet injected by injectResetCSS (source CSS text
condensed; only the element identity matters here). -/
def uaResetCSS : String :=
  "*, *::before, *::after \x7b margin: 0; padding: 0; box-sizing: border-box; line-height: 0px; \x7d body \x7b -webkit-text-size-adjust: 100%; font-size: 16px; \x7d img, video, iframe \x7b max-width: 100%; height: auto; display: block; \x7d"

def uaResetStyle : HNode :=
  .elem "style" [("id", "ua-reset")] (.cons (.text uaResetCSS) .nil)

/-- injectResetCSS: unconditionally prepend the reset stylesheet to the head
element whenever one exists (there is no guard against an already-present
style#ua-reset). -/
def injectResetCSSM (d : HForest) : HForest :=
  HForest.transform
    (fun n =>
      match n with
      | .elem "head" a c => some (.cons (.elem "head" a (.cons uaResetStyle c)) .nil)
      | _ => none)
    d

def isSectionBoxHeader (n : HNode) : Bool := n.tagIs "header" && n.hasClass "section-box"

mutual
/-- Remove the k-th (0-based, document order) node satisfying p, returning
the rewritten forest for a node, the updated match count and the extracted
node. -/
def HNode.rmNth (p : HNode → Bool) (k : Nat) : HNode → Nat → HForest × Nat × Option HNode
  | .text s, seen => (.cons (.text s) .nil, seen, none)
  | .elem t a c, seen =>
    if p (.elem t a c) then
      if seen = k then (.nil, seen + 1, some (.elem t a c))
      else
        let r := HForest.rmNth p k c (seen + 1)
        (.cons (.elem t a r.1) .nil, r.2.1, r.2.2)
    else
      let r := HForest.rmNth p k c seen
      (.cons (.elem t a r.1) .nil, r.2.1, r.2.2)
def HForest.rmNth (p : HNode → Bool) (k : Nat) : HForest → Nat → HForest × Nat × Option HNode
  | .nil, seen => (.nil, seen, none)
  | .cons n tl, seen =>
    let r := HNode.rmNth p k n seen
    let s := HForest.rmNth p k tl r.2.1
    (r.1.append s.1, s.2.1,
      match r.2.2 with
      | some m => some m
      | none => s.2.2)
end

mutual
/-- Insert x immediately before the first node (document order) satisfying q. -/
def HNode.insBefore (q : HNode → Bool) (x : HNode) : HNode → HNode × Bool
  | .text s => (.text s, false)
  | .elem t a c =>
    let r := HForest.insBefore q x c
    (.elem t a r.1, r.2)
def HForest.insBefore (q : HNode → Bool) (x : HNode) : HForest → HForest × Bool
  | .nil => (.nil, false)
  | .cons n tl =>
    if q n then (.cons x (.cons n tl), true)
    else
      let r := HNode.insBefore q x n
      if r.2 then (.cons r.1 tl, true)
      else
        let s := HForest.insBefore q x tl
        (.cons n s.1, s.2)
end

/-- formatPage: URL parse failures are caught (warn only); on vippers.jp the
second header.section-box is moved before div#article-contents (modelled for
the single-target insertBefore case); all other domains are untouched. -/
def formatPageM (E : PipeEnv) (pageUrl : String) (d : HForest) : HForest :=
  match E.hostname pageUrl with
  | none => d
  | some domain =>
    if domain == "vippers.jp" then
      if HForest.cntF isSectionBoxHeader d < 2 then d
      else
        let r := HForest.rmNth isSectionBoxHeader 1 d 0
        match r.2.2 with
        | some hdr =>
          if HForest.anyF isArticleContentsDiv d then (HForest.insBefore isArticleContentsDiv hdr r.1).1
          else d
        | none => d
    else d

/-- processArticleHtml of the generic pipeline at the document level: the
thirteen DOM stages in source order (the final `$.html()` serialization,
newline collapse and js-beautify re-indentation are string formatting and
are outside this document-level model).  The result is none when pagination
threw or did not terminate within fuel iterations. -/
def processArticleDom (E : PipeEnv) (fuel : Nat) (pageUrl : String)
    (removeSelectorsList : List String) (allowHosts : List String) (d : HForest) :
    Option HForest :=
  let d1 := absolutizePathsM E pageUrl d
  match (if checkPagingContents d1 then processPagingM E fuel d1 pageUrl else some d1) with
  | none => none
  | some d2 =>
    let d3 := removeScriptsM E allowHosts d2
    let d4 := removeSelectorsM E removeSelectorsList d3
    let d5 := unwrapImgurM d4
    let d6 := unwrapAnchoredMediaM E d5
    let d7 := normalizeIframesM E allowHosts d6
    let d8 := normalizeImagesM d7
    let d9 := cleanupEmptyTagsM d8
    let d10 := collapseBrsM d9
    let d11 := injectResetCSSM d10
    some (formatPageM E pageUrl d11)

/-- ExtractOpt of specified_scraper.ts: the declarative per-site rule.
Optional fields are Options; unset = none (JS undefined). -/
structure ExtractOpt where
  mainSelectorTag : String
  removeSelectorTags : Option (List String) := none
  transVisibleImage : Option String := none
  imgDataSrcToImgSrc : Option String := none
  iframeSrcToWithSuffixInItemFix : Option Bool := none
  simplifyVideoElement : Option String := none
  removeEmptyTag : Option String := none
  sanitizedAddTags : Option (List String) := none
  reducebr : Option Nat := none
  removeAffiID : Option Bool := none
  fixBase64Img : Option Bool := none
  imgurToImg : Option Bool := none
  twitterEmbed : Option Bool := none
  removeTagAsString : Option String := none
  toFullURL : Option String := none
  removeTagStr : Option String := none
  removeString : Option String := none

/-- JS truthiness of an optional string field (undefined and "" are falsy). -/
def truthyS (o : Option String) : Bool :=
  match o with
  | some s => s != ""
  | none => false

/-- JS truthiness of an optional boolean field. -/
def truthyB (o : Option Bool) : Bool := o.getD false

/-- JS truthiness of an optional number field (undefined and 0 are falsy). -/
def truthyN (o : Option Nat) : Bool :=
  match o with
  | some n => n != 0
  | none => false

/-- External collaborators of baseExtract: cheerio's selector engine for the
main selector and for find() (none = invalid expression, the engine throws),
cheerio.load for noscript contents, DOMPurify.sanitize (dirty, ADD_TAGS,
ADD_ATTR), js-beautify, and the JS RegExp engine for the string passes (the
pattern strings handed to it are built by the model exactly as the source
builds them). -/
structure BXEnv where
  queryMain : String → HForest → Option HForest
  sel : String → Option (HNode → Bool)
  parseFragment : String → HForest
  sanitize : String → List String → List String → String
  beautifyHtml : String → String
  regexRemove : String → String → String
  regexRemoveS : String → String → String
  reduceBrs : Nat → String → String
  affiStrip : String → String
  base64Fix : String → String
  imgurScriptStrip : String → String
  imgurBqToImg : String → String
  twitterBqTest : String → Bool
  twitterJsTest : String → Bool

/-- root.find(...)-style transform: applied to the descendants of each
selected root node (the roots themselves are not part of find()). -/
def rootTransform (f : HNode → Option HForest) : HForest → HForest
  | .nil => .nil
  | .cons n tl => .cons (HNode.onKids f n) (rootTransform f tl)

/-- root.find(sel).remove(). -/
def rootRemove (p : HNode → Bool) (r : HForest) : HForest :=
  rootTransform (fun n => if p n then some .nil else none) r

/-- Attribute rewriting over the descendants of each root node. -/
def rootMapAttrs (g : String → List (String × String) → List (String × String)) :
    HForest → HForest
  | .nil => .nil
  | .cons (.text s) tl => .cons (.text s) (rootMapAttrs g tl)
  | .cons (.elem t a c) tl => .cons (.elem t a (HForest.mapAttrs g c)) (rootMapAttrs g tl)

/-- The removeSelectorTags loop of baseExtract: `for (const sel of ...)
root.find(sel).remove()` — there is NO try/catch here, so an invalid
selector expression throws out of baseExtract (Except.error). -/
def removeSelsBX (E : BXEnv) : List String → HForest → Except String HForest
  | [], r => .ok r
  | s :: rest, r =>
    match E.sel s with
    | none => .error ("invalid selector: " ++ s)
    | some p => removeSelsBX E rest (rootRemove p r)

/-- JS || chain on strings (first truthy wins). -/
def strOr (a b : String) : String := if a != "" then a else b

/-- JS ?? chain over attribute reads (first PRESENT attribute wins, even if
its value is the empty string). -/
def attrCoalesce (n : HNode) : List String → String
  | [] => ""
  | a :: rest =>
    match n.attr a with
    | some v => v
    | none => attrCoalesce n rest

/-- The img fallback branch of the transVisibleImage pass. -/
def transVisibleImgBranch (n : HNode) : Option HForest :=
  match n.firstDesc (fun m => m.tagIs "img") with
  | some im =>
    let imgSrc := attrCoalesce im ["src", "data-src", "data-eio-rsrc"]
    if imgSrc != "" && imgTestQ imgSrc then
      match im with
      | .elem t a c => some (.cons (.elem t (setAttr a "src" imgSrc) c) .nil)
      | .text _ => none
    else none
  | none => none

/-- transVisibleImage of baseExtract: rule-selected elements containing
media get replaced by a bare video tag (when a video source resolves) or by
their first img with the resolved src. -/
def transVisibleBody (p : HNode → Bool) (r : HForest) : HForest :=
  rootTransform
    (fun n =>
      if p n && n.hasDesc isMediaEl then
        match n.firstDesc (fun m => m.tagIs "video" || m.tagIs "source") with
        | some cv =>
          let videoSrc := strOr ((cv.attr "src").getD "") ((n.attr "href").getD "")
          if videoTestQ videoSrc then
            some (.cons
              (.elem "video"
                [("src", videoSrc), ("controls", ""), ("playsinline", ""),
                 ("style", "max-width:100%;height:auto;")]
                .nil)
              .nil)
          else transVisibleImgBranch n
        | none => transVisibleImgBranch n
      else none)
    r

/-- imgDataSrcToImgSrc of baseExtract: img[lazyAttr] elements are replaced
by a fresh img whose only attribute is src = the lazy value. -/
def imgDataSrcBody (tag : String) (r : HForest) : HForest :=
  rootTransform
    (fun n =>
      if n.tagIs "img" && (n.attr tag).isSome then
        let dataSrc := (n.attr tag).getD ""
        if dataSrc == "" then none
        else some (.cons (.elem "img" [("src", dataSrc)] .nil) .nil)
      else none)
    r

/-- iframeSrcToWithSuffixInItemFix of baseExtract. -/
def iframeItemfixBody (r : HForest) : HForest :=
  rootMapAttrs
    (fun t attrs =>
      if t == "iframe" then
        match lookupAttr attrs "src" with
        | some src =>
          if strContains src "itemfix.com" then setAttr attrs "src" ("https:" ++ src)
          else attrs
        | none => attrs
      else attrs)
    r

/-- simplifyVideoElement of baseExtract. -/
def simplifyVideoBody (p : HNode → Bool) (r : HForest) : HForest :=
  rootTransform
    (fun n =>
      if p n then
        match n.firstDesc (fun m => m.tagIs "source" && (m.attr "type" == some "video/mp4")) with
        | some sEl =>
          let src := (sEl.attr "src").getD ""
          if src != "" then
            some (.cons (.elem "video" [("src", src), ("controls", "")] .nil) .nil)
          else none
        | none => none
      else none)
    r

/-- removeEmptyTag of baseExtract. -/
def removeEmptyTagBody (p : HNode → Bool) (r : HForest) : HForest :=
  rootTransform (fun n => if p n && trimStr n.textContent == "" then some .nil else none) r

/-- The unconditional noscript-unwrapping pass of baseExtract: the noscript
inner HTML is re-parsed, its first iframe (with data-src promoted to src
when src is absent) replaces the noscript, otherwise the noscript is
dropped. -/
def noscriptBody (E : BXEnv) (r : HForest) : HForest :=
  rootTransform
    (fun n =>
      match n with
      | .elem "noscript" _ c =>
        let inner := HForest.render c
        let d := E.parseFragment inner
        match HForest.firstF (fun m => m.tagIs "iframe") d with
        | some ifr =>
          let ifr2 :=
            if (ifr.attr "data-src").getD "" != "" && (ifr.attr "src").getD "" == "" then
              match ifr with
              | .elem t a c2 => .elem t (setAttr a "src" ((lookupAttr a "data-src").getD "")) c2
              | m => m
            else ifr
          some (.cons ifr2 .nil)
        | none => some .nil
      | _ => none)
    r

/-- Built-in default ADD_TAGS of the baseExtract sanitize call. -/
def bxDefaultAddTags : List String := ["iframe", "script", "noscript"]

/-- The ADD_TAGS list handed to DOMPurify:
`opt.sanitizedAddTags ?? ["iframe", "script", "noscript"]` (the nullish
coalescing means an explicitly empty list overrides the default). -/
def bxAllowTags (o : ExtractOpt) : List String := o.sanitizedAddTags.getD bxDefaultAddTags

/-- The ADD_ATTR list of the baseExtract sanitize call in
specified_scraper.ts (note: no referrerpolicy). -/
def bxAddAttr : List String := ["src", "alt", "href", "controls", "playsinline"]

/-- The ADD_ATTR list of the baseExtract sanitize call in the part_008 Deno
variant (includes referrerpolicy). -/
def bxAddAttrP8 : List String :=
  ["src", "alt", "href", "controls", "playsinline", "referrerpolicy"]

/-- JS template-literal interpolation of a possibly-undefined field:
an unset field renders as the string "undefined". -/
def jsTemplate (o : Option String) : String := o.getD "undefined"

/-- The RegExp source built by the removeTagStr pass:
`<${opt.removeTagAsString}[\s\S]*?<\/${opt.removeTagAsString}>` — note that
it interpolates removeTagAsString, not removeTagStr. -/
def removeTagStrPattern (o : ExtractOpt) : String :=
  "<" ++ jsTemplate o.removeTagAsString ++ "[\\s\\S]*?<\\/" ++ jsTemplate o.removeTagAsString ++ ">"

/-- reducebr string pass (guard: `if (opt.reducebr)`). -/
def reduceBrPass (E : BXEnv) (o : ExtractOpt) (s : String) : String :=
  if truthyN o.reducebr then E.reduceBrs (o.reducebr.getD 0) s else s

/-- removeAffiID string pass. -/
def affiPass (E : BXEnv) (o : ExtractOpt) (s : String) : String :=
  if truthyB o.removeAffiID then E.affiStrip s else s

/-- fixBase64Img string pass. -/
def base64Pass (E : BXEnv) (o : ExtractOpt) (s : String) : String :=
  if truthyB o.fixBase64Img then E.base64Fix s else s

/-- imgurToImg string pass: first the embed.js script removal, then the
blockquote[data-id] to img replacement. -/
def imgurPass (E : BXEnv) (o : ExtractOpt) (s : String) : String :=
  if truthyB o.imgurToImg then E.imgurBqToImg (E.imgurScriptStrip s) else s

/-- twitterEmbed string pass: append the widgets.js loader at most once and
only when a twitter-tweet blockquote is present. -/
def twitterPass (E : BXEnv) (o : ExtractOpt) (s : String) : String :=
  if truthyB o.twitterEmbed then
    if E.twitterBqTest s && !E.twitterJsTest s then
      s ++ "\n<script async src=\"https://platform.twitter.com/widgets.js\"></script>"
    else s
  else s

/-- removeTagStr string pass: guarded by removeTagStr, but the pattern it
hands to the RegExp engine is built from removeTagAsString. -/
def removeTagStrPass (E : BXEnv) (o : ExtractOpt) (s : String) : String :=
  if truthyS o.removeTagStr then E.regexRemove (removeTagStrPattern o) s else s

/-- removeString string pass. -/
def removeStringPass (E : BXEnv) (o : ExtractOpt) (s : String) : String :=
  if truthyS o.removeString then E.regexRemoveS (o.removeString.getD "") s else s

/-- The DOM rewrite of the toFullURL pass: every descendant src attribute
that is not absolute http(s) is rewritten against the rule base. -/
def toFullURLRewrite (base0 : String) (r : HForest) : HForest :=
  let base := rstripSlashes base0
  rootMapAttrs
    (fun _t attrs =>
      match lookupAttr attrs "src" with
      | none => attrs
      | some v =>
        let src := stripAllWS (trimStr v)
        if isAbsHttp src then attrs
        else setAttr attrs "src" (base ++ "/" ++ lstripSlashes src))
    r

/-- toFullURL pass of baseExtract (a DOM mutation). -/
def toFullURLPass (o : ExtractOpt) (r : HForest) : HForest :=
  if truthyS o.toFullURL then toFullURLRewrite (o.toFullURL.getD "") r else r

/-- removeDuplicateEmptyLine: `replace(/\n\s*\n+/g, "\n")`.  Scanning form:
each whitespace region starting at a newline is replaced by a single newline
followed by the whitespace after the region's last newline. -/
def rmDupGo : Option (List Char) → List Char → List Char
  | none, [] => []
  | none, c :: cs => if c = '\n' then '\n' :: rmDupGo (some []) cs else c :: rmDupGo none cs
  | some buf, [] => buf.reverse
  | some buf, c :: cs =>
    if c = '\n' then rmDupGo (some []) cs
    else if wsChar c then rmDupGo (some (c :: buf)) cs
    else buf.reverse ++ (c :: rmDupGo none cs)

def removeDuplicateEmptyLine (s : String) : String := String.mk (rmDupGo none s.data)

def HForest.isEmptyF : HForest → Bool
  | .nil => true
  | .cons _ _ => false

def rootsInnerHtml : HForest → List String
  | .nil => []
  | .cons n tl => HNode.innerHtml n :: rootsInnerHtml tl

def strJoinNl : List String → String
  | [] => ""
  | [s] => s
  | s :: rest => s ++ "\n" ++ strJoinNl rest

/-- baseExtract of specified_scraper.ts.  Result: .error when a selector
expression throws (uncaught in baseExtract), .ok of the output string
otherwise; an empty root selection returns the empty string immediately.
The toFullURL pass is executed exactly where the source executes it: on the
DOM root AFTER the output string has been serialized (its result is the
dead let binding below, mirroring the source). -/
def baseExtractM (E : BXEnv) (o : ExtractOpt) (doc : HForest) : Except String String :=
  match E.queryMain o.mainSelectorTag doc with
  | none => .error ("invalid main selector: " ++ o.mainSelectorTag)
  | some root =>
    if root.isEmptyF then .ok ""
    else do
      let root1 ←
        match o.removeSelectorTags with
        | none => pure root
        | some sels => removeSelsBX E sels root
      let root2 ←
        if truthyS o.transVisibleImage then
          match E.sel (o.transVisibleImage.getD "") with
          | none => throw ("invalid selector: " ++ o.transVisibleImage.getD "")
          | some p => pure (transVisibleBody p root1)
        else pure root1
      let root3 :=
        if truthyS o.imgDataSrcToImgSrc then imgDataSrcBody (o.imgDataSrcToImgSrc.getD "") root2
        else root2
      let root4 :=
        if truthyB o.iframeSrcToWithSuffixInItemFix then iframeItemfixBody root3 else root3
      let root5 ←
        if truthyS o.simplifyVideoElement then
          match E.sel (o.simplifyVideoElement.getD "") with
          | none => throw ("invalid selector: " ++ o.simplifyVideoElement.getD "")
          | some p => pure (simplifyVideoBody p root4)
        else pure root4
      let root6 ←
        if truthyS o.removeEmptyTag then
          match E.sel (o.removeEmptyTag.getD "") with
          | none => throw ("invalid selector: " ++ o.removeEmptyTag.getD "")
          | some p => pure (removeEmptyTagBody p root5)
        else pure root5
      let root7 := noscriptBody E root6
      let dirty := strJoinNl (rootsInnerHtml root7)
      let clean := E.sanitize dirty (bxAllowTags o) bxAddAttr
      let out0 := E.beautifyHtml clean
      let out1 := reduceBrPass E o out0
      let out2 := affiPass E o out1
      let out3 := base64Pass E o out2
      let out4 := imgurPass E o out3
      let out5 := twitterPass E o out4
      let out6 := removeTagStrPass E o out5
      let _root8 := toFullURLPass o root7
      let out7 := removeStringPass E o out6
      pure (removeDuplicateEmptyLine (trimStr out7))

/-- The img tag emitted by convertImgurEmbeds in the part_009 Deno variant
(note the `.jpg` extension). -/
def p9ImgurImg (imgId : String) : HNode :=
  .elem "img"
    [("src", "https://i.imgur.com/" ++ imgId ++ ".jpg"), ("loading", "lazy"),
     ("referrerpolicy", "no-referrer")]
    .nil

def isImgurEmbedJsScript (n : HNode) : Bool :=
  n.tagIs "script" && strContains ((n.attr "src").getD "") "imgur.com/js/embed.js"

/-- convertImgurEmbeds of the part_009 Deno variant: drop the embed.js
loader, then replace every blockquote.imgur-embed-pub[data-id] with an img
whose src is https://i.imgur.com/ID.jpg (ID = trimmed data-id). -/
def convertImgurEmbedsP9 (root : HForest) : HForest :=
  let r1 := rootRemove isImgurEmbedJsScript root
  rootTransform
    (fun n =>
      if n.tagIs "blockquote" && n.hasClass "imgur-embed-pub" && (n.attr "data-id").isSome then
        some (.cons (p9ImgurImg (trimStr ((n.attr "data-id").getD ""))) .nil)
      else none)
    r1

mutual
/-- All nodes of a tree satisfying p, in document order (a cheerio
selection of context-free matches). -/
def HNode.collectN (p : HNode → Bool) : HNode → List HNode
  | .text s => if p (.text s) then [.text s] else []
  | .elem t a c => (if p (.elem t a c) then [.elem t a c] else []) ++ HForest.collectF p c
def HForest.collectF (p : HNode → Bool) : HForest → List HNode
  | .nil => []
  | .cons n tl => HNode.collectN p n ++ HForest.collectF p tl
end

/-- A finite next-link chain of k pages under the environment E: following
the current link resolves, fetches and parses k pages whose fetches all
succeed with non-empty HTML, and the k-th page carries no further usable
next link (no link element, a link without href, or an empty href). -/
inductive FiniteChain (E : PipeEnv) : Option (Option String) → String → Nat → Prop
  | link_absent (cur : String) : FiniteChain E none cur 0
  | href_missing (cur : String) : FiniteChain E (some none) cur 0
  | href_empty (cur : String) : FiniteChain E (some (some "")) cur 0
  | step (h cur url html : String) (k : Nat) :
      h ≠ "" →
      E.resolveUrl h cur = some url →
      E.fetchHtml url = some html →
      html ≠ "" →
      FiniteChain E (navHref (E.parseHtml html)) url k →
      FiniteChain E (some (some h)) cur (k + 1)

/-- A next-link chain whose k-th fetch fails (null or empty HTML) after
k - 1 successful pages; cs accumulates the article-body children of the
successful pages. -/
inductive FailChain (E : PipeEnv) : Option (Option String) → String → HForest → Nat → Prop
  | fail (h cur url : String) :
      h ≠ "" →
      E.resolveUrl h cur = some url →
      (E.fetchHtml url = none ∨ E.fetchHtml url = some "") →
      FailChain E (some (some h)) cur .nil 1
  | step (h cur url html : String) (cs : HForest) (k : Nat) :
      h ≠ "" →
      E.resolveUrl h cur = some url →
      E.fetchHtml url = some html →
      html ≠ "" →
      FailChain E (navHref (E.parseHtml html)) url cs k →
      FailChain E (some (some h)) cur ((articleBodyKids (E.parseHtml html)).append cs) (k + 1)

/-- style#ua-reset counter (observable for the idempotence analysis). -/
def countUaReset (d : HForest) : Nat :=
  HForest.cntF (fun n => n.tagIs "style" && (n.attr "id" == some "ua-reset")) d

/-- Concrete pipeline environment for evaluations: URL hostname of the test
page, no selector engine / fetcher needed. -/
def pipeTestEnv : PipeEnv where
  resolveUrl := fun _ _ => none
  hostname := fun s => if s == "https://example.com/" then some "example.com" else none
  queryVals := fun _ => none
  sel := fun _ => none
  fetchHtml := fun _ => none
  parseHtml := fun _ => .nil

/-- Concrete pipeline environment whose selector engine accepts the tag
selector "p" and rejects everything else as invalid. -/
def pipeSelEnv : PipeEnv where
  resolveUrl := fun _ _ => none
  hostname := fun _ => none
  queryVals := fun _ => none
  sel := fun s => if s == "p" then some (fun n => n.tagIs "p") else none
  fetchHtml := fun _ => none
  parseHtml := fun _ => .nil

/-- Parsed form of `<html><head></head><body><p>hello</p></body></html>`. -/
def c4doc : HForest :=
  .cons
    (.elem "html" []
      (.cons (.elem "head" [] .nil)
        (.cons
          (.elem "body" []
            (.cons (.elem "p" [] (.cons (.text "hello") .nil)) .nil))
          .nil)))
    .nil

/-- A document whose images all carry the my-formatted marker class. -/
def c4markedDoc : HForest :=
  .cons
    (.elem "div" []
      (.cons
        (.elem "img"
          [("src", "https://x.com/a.jpg"), ("loading", "lazy"), ("class", "my-formatted")]
          .nil)
        .nil))
    .nil

/-- img with a media-matching lazy attribute AND a direct src (the input of
the media-resolution priority scenario). -/
def c2elem : HNode :=
  .elem "img" [("data-src", "https://x.com/a.jpg"), ("src", "https://x.com/b.png")] .nil

/-- img whose first non-empty lazy attribute does not match the media
pattern while a later one does, plus a direct src. -/
def c2elemB : HNode :=
  .elem "img"
    [("data-src", "about:blank"), ("data-lazy-src", "https://x.com/a.jpg"),
     ("src", "https://x.com/b.png")]
    .nil

/-- `<blockquote class="imgur-embed-pub" data-id="abcde">` as a document. -/
def c8doc : HForest :=
  .cons (.elem "blockquote" [("class", "imgur-embed-pub"), ("data-id", "abcde")] .nil) .nil

/-- The imgur embed blockquote with a symbolic id and children. -/
def imgurBq (imgId : String) (cs : HForest) : HNode :=
  .elem "blockquote" [("class", "imgur-embed-pub"), ("data-id", imgId)] cs

/-- Concrete baseExtract environment: tag-name main selectors, a selector
engine accepting only "p" (anything else throws), identity sanitizer /
beautifier / regex engine. -/
def bxTestEnv : BXEnv where
  queryMain := fun s d => some (HForest.ofList (HForest.collectF (fun n => n.tagIs s) d))
  sel := fun s => if s == "p" then some (fun n => n.tagIs "p") else none
  parseFragment := fun _ => .nil
  sanitize := fun dirty _ _ => dirty
  beautifyHtml := fun s => s
  regexRemove := fun _ s => s
  regexRemoveS := fun _ s => s
  reduceBrs := fun _ s => s
  affiStrip := fun s => s
  base64Fix := fun s => s
  imgurScriptStrip := fun s => s
  imgurBqToImg := fun s => s
  twitterBqTest := fun _ => false
  twitterJsTest := fun _ => false

/-- Rule with an invalid selector followed by a valid one. -/
def bx5opt : ExtractOpt :=
  { mainSelectorTag := "div", removeSelectorTags := some ["[x", "p"] }

/-- `<div><p>x</p></div>` as a document. -/
def bx5doc : HForest :=
  .cons (.elem "div" [] (.cons (.elem "p" [] (.cons (.text "x") .nil)) .nil)) .nil

/-- Rule with a URL-prefixing base set. -/
def bx9opt : ExtractOpt :=
  { mainSelectorTag := "div", toFullURL := some "https://ertk.net/" }

/-- `<div><img src="/a.jpg"></div>` as a document. -/
def bx9doc : HForest :=
  .cons (.elem "div" [] (.cons (.elem "img" [("src", "/a.jpg")] .nil) .nil)) .nil

/-- Rule enabling the removeTagStr pass while leaving removeTagAsString
unset. -/
def bx10opt : ExtractOpt :=
  { mainSelectorTag := "article", removeTagStr := some "span" }

/-- The page used for the cyclic-pagination analysis: its next link points
back at itself through next.html. -/
def cycNavPage : HForest :=
  .cons
    (.elem "p" [("class", "next")]
      (.cons (.elem "a" [("class", "pagingNav"), ("href", "next.html")] .nil) .nil))
    .nil

/-- Environment realizing a cyclic next-link chain: every fetch returns the
same page, whose next link again points at next.html. -/
def cycEnv : PipeEnv where
  resolveUrl := fun h _ => some h
  hostname := fun _ => none
  queryVals := fun _ => none
  sel := fun _ => none
  fetchHtml := fun _ => some "cyc"
  parseHtml := fun _ => cycNavPage

/-- Page 1 of the two-page witness chain: next link to u2. -/
def c1page1 : HForest :=
  .cons
    (.elem "p" [("class", "next")]
      (.cons (.elem "a" [("class", "pagingNav"), ("href", "u2")] .nil) .nil))
    .nil

/-- Page 2 of the two-page witness chain: no next link. -/
def c1page2 : HForest :=
  .cons (.elem "p" [] (.cons (.text "end") .nil)) .nil

/-- Environment realizing a finite chain of exactly two next-links. -/
def c1ChainEnv : PipeEnv where
  resolveUrl := fun h _ => some h
  hostname := fun _ => none
  queryVals := fun _ => none
  sel := fun _ => none
  fetchHtml := fun u => if u == "u1" then some "h1" else if u == "u2" then some "h2" else none
  parseHtml := fun s => if s == "h1" then c1page1 else if s == "h2" then c1page2 else .nil

/-- The fetched page of the fetch-failure witness: an article body with one
paragraph and a next link to u2 (whose fetch fails). -/
def c7page1 : HForest :=
  .cons
    (.elem "div" [("class", "article-body")]
      (.cons (.elem "p" [] (.cons (.text "two") .nil)) .nil))
    (.cons
      (.elem "p" [("class", "next")]
        (.cons (.elem "a" [("class", "pagingNav"), ("href", "u2")] .nil) .nil))
      .nil)

/-- The first page of the fetch-failure witness: a main article body plus a
next link to u1. -/
def c7mainDoc : HForest :=
  .cons
    (.elem "div" [("id", "article-contents")]
      (.cons (.elem "p" [] (.cons (.text "one") .nil)) .nil))
    (.cons
      (.elem "p" [("class", "next")]
        (.cons (.elem "a" [("class", "pagingNav"), ("href", "u1")] .nil) .nil))
      .nil)

/-- Environment in which u1 fetches a page linking to u2 and the u2 fetch
fails. -/
def c7FailEnv : PipeEnv where
  resolveUrl := fun h _ => some h
  hostname := fun _ => none
  queryVals := fun _ => none
  sel := fun _ => none
  fetchHtml := fun u => if u == "u1" then some "h1" else none
  parseHtml := fun s => if s == "h1" then c7page1 else .nil

/-- A document without p elements (for the no-match no-op witness). -/
def noPDoc : HForest :=
  .cons (.elem "div" [] (.cons (.text "x") .nil)) .nil

theorem HForest.append_nil : (fr : HForest) → fr.append .nil = fr
  | .nil => rfl
  | .cons n tl => by rw [HForest.append, HForest.append_nil tl]

theorem HForest.append_assoc : (a b c : HForest) → (a.append b).append c = a.append (b.append c)
  | .nil, _, _ => rfl
  | .cons n tl, b, c => by
    rw [HForest.append, HForest.append, HForest.append, HForest.append_assoc tl b c]

theorem HNode.anyN_self (p : HNode → Bool) (n : HNode) (h : HNode.anyN p n = false) :
    p n = false := by
  cases n with
  | text s => rw [HNode.anyN] at h; exact h
  | elem t a c => rw [HNode.anyN] at h; exact (Bool.or_eq_false_iff.mp h).1

theorem HNode.anyN_kids (p : HNode → Bool) (t : String) (a : List (String × String))
    (c : HForest) (h : HNode.anyN p (.elem t a c) = false) : HForest.anyF p c = false := by
  rw [HNode.anyN] at h
  exact (Bool.or_eq_false_iff.mp h).2

mutual
theorem HNode.onKids_noop (f : HNode → Option HForest) :
    (n : HNode) → HNode.anyN (fun m => (f m).isSome) n = false → HNode.onKids f n = n
  | .text _, _ => rfl
  | .elem t a c, h => by
    rw [HNode.onKids, HForest.transform_noop f c (HNode.anyN_kids _ t a c h)]
theorem HForest.transform_noop (f : HNode → Option HForest) :
    (fr : HForest) → HForest.anyF (fun m => (f m).isSome) fr = false →
      HForest.transform f fr = fr
  | .nil, _ => rfl
  | .cons n tl, h => by
    rw [HForest.anyF] at h
    obtain ⟨h1, h2⟩ := Bool.or_eq_false_iff.mp h
    have hfn : f n = none := by
      have := HNode.anyN_self _ n h1
      cases hf : f n with
      | none => rfl
      | some v => rw [hf] at this; simp at this
    rw [HForest.transform, hfn, HNode.onKids_noop f n h1, HForest.transform_noop f tl h2]
end

mutual
theorem HNode.anyN_imp (p q : HNode → Bool) (hpq : ∀ m, p m = true → q m = true) :
    (n : HNode) → HNode.anyN q n = false → HNode.anyN p n = false
  | .text s, h => by
    rw [HNode.anyN] at h ⊢
    cases hp : p (.text s) with
    | false => rfl
    | true => rw [hpq _ hp] at h; exact h
  | .elem t a c, h => by
    rw [HNode.anyN] at h ⊢
    obtain ⟨h1, h2⟩ := Bool.or_eq_false_iff.mp h
    rw [HForest.anyF_imp p q hpq c h2]
    cases hp : p (.elem t a c) with
    | false => rfl
    | true => rw [hpq _ hp] at h1; exact absurd h1 (by simp)
theorem HForest.anyF_imp (p q : HNode → Bool) (hpq : ∀ m, p m = true → q m = true) :
    (fr : HForest) → HForest.anyF q fr = false → HForest.anyF p fr = false
  | .nil, _ => rfl
  | .cons n tl, h => by
    rw [HForest.anyF] at h ⊢
    obtain ⟨h1, h2⟩ := Bool.or_eq_false_iff.mp h
    rw [HNode.anyN_imp p q hpq n h1, HForest.anyF_imp p q hpq tl h2]
    rfl
end

/-- Removal of non-matching selectors is a no-op on the tree. -/
theorem HForest.removeAll_noop (p : HNode → Bool) (fr : HForest)
    (h : HForest.anyF p fr = false) : HForest.removeAll p fr = fr := by
  rw [HForest.removeAll]
  apply HForest.transform_noop
  apply HForest.anyF_imp _ p _ fr h
  intro m hm
  cases hp : p m with
  | true => rfl
  | false => rw [hp] at hm; simp at hm

/-- The lazy-attribute loop returns the trimmed value of the first matching
configured attribute whenever some configured attribute matches. -/
theorem lazyScan_finds (n : HNode) (attrs : List String) :
    ∀ a ∈ attrs, ∀ v, n.attr a = some v → v ≠ "" → mediaTest (trimStr v) = true →
      ∃ b ∈ attrs, ∃ w, n.attr b = some w ∧ w ≠ "" ∧ mediaTest (trimStr w) = true ∧
        lazyScan n attrs = some (trimStr w) := by
  induction attrs with
  | nil => intro a ha; exact absurd ha (List.not_mem_nil a)
  | cons b rest IH =>
    intro a ha v hv hne hm
    cases hb : n.attr b with
    | some w =>
      have heq : lazyScan n (b :: rest) =
          (if (w != "" && mediaTest (trimStr w)) = true then some (trimStr w)
            else lazyScan n rest) := by
        rw [lazyScan, hb]
      cases hcond : (w != "" && mediaTest (trimStr w)) with
      | true =>
        obtain ⟨hw1, hw2⟩ := (Bool.and_eq_true _ _).mp hcond
        exact ⟨b, List.mem_cons_self b rest, w, hb, bne_iff_ne.mp hw1, hw2,
          by rw [heq, if_pos hcond]⟩
      | false =>
        have hrest : a ∈ rest := by
          rcases List.mem_cons.mp ha with h | h
          · subst h
            rw [hb] at hv
            injection hv with hv
            subst hv
            have : (w != "" && mediaTest (trimStr w)) = true := by
              rw [Bool.and_eq_true, bne_iff_ne]
              exact ⟨hne, hm⟩
            rw [this] at hcond
            exact absurd hcond (by simp)
          · exact h
        obtain ⟨b2, hb2, w2, hw2⟩ := IH a hrest v hv hne hm
        exact ⟨b2, List.mem_cons_of_mem _ hb2, w2, hw2.1, hw2.2.1, hw2.2.2.1,
          by rw [heq, if_neg (by simp [hcond])]; exact hw2.2.2.2⟩
    | none =>
      have heq : lazyScan n (b :: rest) = lazyScan n rest := by rw [lazyScan, hb]
      have hrest : a ∈ rest := by
        rcases List.mem_cons.mp ha with h | h
        · subst h; rw [hb] at hv; exact absurd hv (by simp)
        · exact h
      obtain ⟨b2, hb2, w2, hw2⟩ := IH a hrest v hv hne hm
      exact ⟨b2, List.mem_cons_of_mem _ hb2, w2, hw2.1, hw2.2.1, hw2.2.2.1,
        by rw [heq]; exact hw2.2.2.2⟩

/-- C2 (amended): for every element carrying some configured lazy-loading
attribute whose truthy value matches the media pattern, the generic
pipeline's findValidMediaUrl returns the trimmed value of a configured lazy
attribute (the first matching one) — the direct src is not consulted.  (The
part_009 normalizeImages and part_010 findValidMediaUrl variants do NOT
satisfy the original claim; see the counterexample.) -/
theorem findValidMediaUrl_lazy_priority (n : HNode) (a v : String)
    (ha : a ∈ LAZY_ATTRS) (hv : n.attr a = some v) (hne : v ≠ "")
    (hm : mediaTest (trimStr v) = true) :
    ∃ b ∈ LAZY_ATTRS, ∃ w, n.attr b = some w ∧ w ≠ "" ∧ mediaTest (trimStr w) = true ∧
      findValidMediaUrl n = trimStr w := by
  obtain ⟨b, hb, w, hw1, hw2, hw3, hw4⟩ := lazyScan_finds n LAZY_ATTRS a ha v hv hne hm
  refine ⟨b, hb, w, hw1, hw2, hw3, ?_⟩
  rw [findValidMediaUrl, hw4]

/-- Witness for C2 at a concrete element with both a matching data-src and a
direct src. -/
theorem findValidMediaUrl_lazy_priority_witness :
    ∃ b ∈ LAZY_ATTRS, ∃ w, c2elem.attr b = some w ∧ w ≠ "" ∧
      mediaTest (trimStr w) = true ∧ findValidMediaUrl c2elem = trimStr w :=
  findValidMediaUrl_lazy_priority c2elem "data-src" "https://x.com/a.jpg"
    (by decide) (by decide) (by decide) (by decide)

/-- Counterexample for C2 as stated: in the part_009 normalizeImages variant
the direct src wins over a media-matching data-src, and in the part_010
findValidMediaUrl variant a matching later lazy attribute loses to the
direct src because only the first non-empty lazy attribute is tested. -/
theorem media_priority_counterexample :
    mediaTest (trimStr "https://x.com/a.jpg") = true ∧
    c2elem.attr "data-src" = some "https://x.com/a.jpg" ∧
    c2elem.attr "src" = some "https://x.com/b.png" ∧
    p9ImgResolvedSrc c2elem = "https://x.com/b.png" ∧
    mediaTest "https://x.com/a.jpg" = true ∧
    c2elemB.attr "data-lazy-src" = some "https://x.com/a.jpg" ∧
    c2elemB.attr "src" = some "https://x.com/b.png" ∧
    findValidMediaUrlP10 c2elemB = "https://x.com/b.png" := by
  decide

/-- C3 (amended): with the field unset the extra allowed tag set is exactly
iframe/script/noscript and a set field (including the empty list) overrides
it; the attribute allowlist addition of specified_scraper.ts is exactly
src/alt/href/controls/playsinline — referrerpolicy is NOT among them (it is
added only in the part_008 variant). -/
theorem bx_sanitizer_config (o : ExtractOpt) :
    (o.sanitizedAddTags = none → bxAllowTags o = ["iframe", "script", "noscript"]) ∧
    (∀ l, o.sanitizedAddTags = some l → bxAllowTags o = l) ∧
    "src" ∈ bxAddAttr ∧ "alt" ∈ bxAddAttr ∧ "href" ∈ bxAddAttr ∧
    "controls" ∈ bxAddAttr ∧ "playsinline" ∈ bxAddAttr ∧
    "referrerpolicy" ∉ bxAddAttr ∧ "referrerpolicy" ∈ bxAddAttrP8 := by
  refine ⟨?_, ?_, by decide, by decide, by decide, by decide, by decide, by decide, by decide⟩
  · intro h; rw [bxAllowTags, h]; rfl
  · intro l h; rw [bxAllowTags, h]; rfl

/-- Witness for C3 at concrete rules (unset field, and empty-list override). -/
theorem bx_sanitizer_config_witness :
    bxAllowTags { mainSelectorTag := "article" } = ["iframe", "script", "noscript"] ∧
    bxAllowTags { mainSelectorTag := "article", sanitizedAddTags := some [] } = [] :=
  ⟨(bx_sanitizer_config { mainSelectorTag := "article" }).1 rfl,
   (bx_sanitizer_config { mainSelectorTag := "article", sanitizedAddTags := some [] }).2.1
     [] rfl⟩

/-- Counterexample for C3 as stated: the sanitize call of
specified_scraper.ts does not add referrerpolicy to the attribute
allowlist (the part_008 variant does). -/
theorem bx_addattr_missing_referrerpolicy :
    bxAllowTags { mainSelectorTag := "article" } = ["iframe", "script", "noscript"] ∧
    "referrerpolicy" ∉ bxAddAttr ∧ "referrerpolicy" ∈ bxAddAttrP8 := by
  decide

/-- C5 (amended): in the generic pipeline's removeSelectors, selectors are
applied in listed order, an invalid selector is skipped (the document is
unchanged and the remaining selectors still run), and a selector matching
nothing is a no-op.  (baseExtract of specified_scraper.ts does NOT satisfy
the original claim: its removal loop has no try/catch; see the
counterexample.) -/
theorem removeSelectors_order_invalid_skip_noop (E : PipeEnv) (s : String)
    (rest : List String) (d : HForest) :
    removeSelectorsM E (s :: rest) d = removeSelectorsM E rest (removeSelOne E d s) ∧
    (E.sel s = none → removeSelOne E d s = d) ∧
    (∀ p, E.sel s = some p → HForest.anyF p d = false → removeSelOne E d s = d) := by
  refine ⟨rfl, ?_, ?_⟩
  · intro h; rw [removeSelOne, h]
  · intro p hp hnm; rw [removeSelOne, hp]; exact HForest.removeAll_noop p d hnm

/-- Witness for C5: an invalid selector is skipped, a selector with no match
leaves the tree unchanged, and the list is processed head-first. -/
theorem removeSelectors_order_invalid_skip_noop_witness :
    removeSelOne pipeSelEnv bx5doc "[x" = bx5doc ∧
    removeSelOne pipeSelEnv noPDoc "p" = noPDoc ∧
    removeSelectorsM pipeSelEnv ["[x", "p"] bx5doc =
      removeSelectorsM pipeSelEnv ["p"] (removeSelOne pipeSelEnv bx5doc "[x") :=
  ⟨(removeSelectors_order_invalid_skip_noop pipeSelEnv "[x" [] bx5doc).2.1 rfl,
   (removeSelectors_order_invalid_skip_noop pipeSelEnv "p" [] noPDoc).2.2
     (fun n => n.tagIs "p") rfl (by rfl),
   (removeSelectors_order_invalid_skip_noop pipeSelEnv "[x" ["p"] bx5doc).1⟩

/-- Counterexample for C5 as stated: in baseExtract an invalid selector in
removeSelectorTags throws and aborts the whole extraction (the subsequent
valid selector "p" is never applied). -/
theorem baseExtract_invalid_selector_aborts :
    baseExtractM bxTestEnv bx5opt bx5doc = .error "invalid selector: [x" := by
  rfl

/-- C6 (confirmed): when the main selector resolves to zero nodes,
baseExtract logs and returns the empty string — no exception escapes and no
partial document is produced. -/
theorem baseExtract_empty_root (E : BXEnv) (o : ExtractOpt) (doc : HForest)
    (h : E.queryMain o.mainSelectorTag doc = some .nil) :
    baseExtractM E o doc = .ok "" := by
  unfold baseExtractM
  rw [h]
  rfl

/-- Witness for C6: a main selector matching nothing in the empty document. -/
theorem baseExtract_empty_root_witness :
    baseExtractM bxTestEnv { mainSelectorTag := "main" } .nil = .ok "" :=
  baseExtract_empty_root bxTestEnv { mainSelectorTag := "main" } .nil rfl

/-- C10 (amended): every optional string pass of baseExtract is skipped
entirely when its own rule field is unset; however the removeTagStr pass,
when enabled, hands the RegExp engine a pattern built from the
removeTagAsString field — even when that field is unset. -/
theorem optional_passes_skipped_when_unset (E : BXEnv) (o : ExtractOpt) (s : String)
    (r : HForest) :
    (o.reducebr = none → reduceBrPass E o s = s) ∧
    (o.removeAffiID = none → affiPass E o s = s) ∧
    (o.fixBase64Img = none → base64Pass E o s = s) ∧
    (o.imgurToImg = none → imgurPass E o s = s) ∧
    (o.twitterEmbed = none → twitterPass E o s = s) ∧
    (o.removeTagStr = none → removeTagStrPass E o s = s) ∧
    (o.toFullURL = none → toFullURLPass o r = r) ∧
    (o.removeString = none → removeStringPass E o s = s) ∧
    (truthyS o.removeTagStr = true →
      removeTagStrPass E o s = E.regexRemove (removeTagStrPattern o) s) := by
  refine ⟨?_, ?_, ?_, ?_, ?_, ?_, ?_, ?_, ?_⟩
  case refine_9 =>
    intro h
    simp only [removeTagStrPass, h, if_true]
  all_goals intro h
  all_goals
    simp [reduceBrPass, affiPass, base64Pass, imgurPass, twitterPass, removeTagStrPass,
      toFullURLPass, removeStringPass, truthyS, truthyB, truthyN, Option.getD, h]

/-- Witness for C10: passes skipped at a default rule, and the removeTagStr
pass applied with the pattern built from the (unset) removeTagAsString. -/
theorem optional_passes_skipped_when_unset_witness :
    reduceBrPass bxTestEnv { mainSelectorTag := "x" } "s" = "s" ∧
    toFullURLPass { mainSelectorTag := "x" } .nil = .nil ∧
    removeTagStrPass bxTestEnv bx10opt "s" =
      bxTestEnv.regexRemove (removeTagStrPattern bx10opt) "s" :=
  ⟨(optional_passes_skipped_when_unset bxTestEnv { mainSelectorTag := "x" } "s" .nil).1 rfl,
   (optional_passes_skipped_when_unset bxTestEnv { mainSelectorTag := "x" } "s" .nil).2.2.2.2.2.2.1
     rfl,
   (optional_passes_skipped_when_unset bxTestEnv bx10opt "s" .nil).2.2.2.2.2.2.2.2 (by decide)⟩

/-- Counterexample for C10 as stated: with removeTagStr set and
removeTagAsString unset, the removal pass is applied and its pattern
interpolates the unset field as the string undefined. -/
theorem removeTagStr_uses_unset_field :
    truthyS bx10opt.removeTagStr = true ∧
    bx10opt.removeTagAsString = none ∧
    removeTagStrPattern bx10opt = "<undefined[\\s\\S]*?<\\/undefined>" := by
  refine ⟨by decide, rfl, by decide⟩

/-- C8 (amended): an imgur embed blockquote with data-id X (non-empty after
trimming) is converted to an image tag whose src is
https://i.imgur.com/X.jpg by the part_009 converter, while the generic
pipeline's createImgurImgTag emits https://i.imgur.com/X.jpeg. -/
theorem imgur_embed_conversion (imgId : String) (hne : trimStr imgId ≠ "") :
    convertImgurEmbedsP9 (.cons (.elem "div" [] (.cons (imgurBq imgId .nil) .nil)) .nil) =
      .cons (.elem "div" [] (.cons (p9ImgurImg (trimStr imgId)) .nil)) .nil ∧
    (p9ImgurImg (trimStr imgId)).attr "src" =
      some ("https://i.imgur.com/" ++ trimStr imgId ++ ".jpg") ∧
    unwrapImgurM (.cons (imgurBq imgId .nil) .nil) =
      .cons (createImgurImgTagM (trimStr imgId)) .nil ∧
    (createImgurImgTagM (trimStr imgId)).attr "src" =
      some ("https://i.imgur.com/" ++ trimStr imgId ++ ".jpeg") := by
  have h1 : (trimStr imgId != "") = true := bne_iff_ne.mpr hne
  have h0 : (imgId != "") = true := by
    rw [bne_iff_ne]
    intro e
    exact hne (by rw [e]; rfl)
  refine ⟨rfl, rfl, ?_, rfl⟩
  simp only [unwrapImgurM, imgurBq, HForest.transform, HNode.onKids]
  simp [h0, h1, HNode.tagIs, HNode.hasClass, HNode.attr, lookupAttr, HForest.transform,
    HForest.append]
  rw [if_pos (by decide)]
  rfl

/-- Witness for C8 at the id xyz12. -/
theorem imgur_embed_conversion_witness :
    unwrapImgurM (.cons (imgurBq "xyz12" .nil) .nil) =
      .cons (createImgurImgTagM (trimStr "xyz12")) .nil :=
  (imgur_embed_conversion "xyz12" (by decide)).2.2.1

/-- Counterexample for C8 as stated: the generic pipeline replaces the
scenario blockquote by an img whose src ends in .jpeg, not .jpg. -/
theorem imgur_blockquote_yields_jpeg :
    unwrapImgurM c8doc = .cons (createImgurImgTagM "abcde") .nil ∧
    (createImgurImgTagM "abcde").attr "src" = some "https://i.imgur.com/abcde.jpeg" ∧
    "https://i.imgur.com/abcde.jpeg" ≠ "https://i.imgur.com/abcde.jpg" := by
  refine ⟨rfl, rfl, by decide⟩

/-- C9 (code bug): the toFullURL pass mutates the DOM root only AFTER the
output string has been serialized, so it can never change the string
baseExtract returns: for every environment, rule and document, the result
with toFullURL set equals the result with it unset; concretely, a rule with
toFullURL = https://ertk.net/ still returns the relative src /a.jpg
untouched. -/
theorem toFullURL_pass_dead_code :
    (∀ (E : BXEnv) (o : ExtractOpt) (doc : HForest) (u : String),
      baseExtractM E { o with toFullURL := some u } doc =
        baseExtractM E { o with toFullURL := none } doc) ∧
    baseExtractM bxTestEnv bx9opt bx9doc = .ok "<img src=\"/a.jpg\"></img>" ∧
    strContains "<img src=\"/a.jpg\"></img>" "/a.jpg" = true := by
  refine ⟨?_, rfl, by decide⟩
  intro E o doc u
  rfl

/-- C4 (amended): the marker class is an effective idempotence guard for
media normalization — normalizeImages leaves any document unchanged once
every img carries the my-formatted class.  (The full pipeline is NOT
idempotent; see the counterexample on the reset-CSS injection.) -/
theorem normalizeImages_marker_idempotent (d : HForest)
    (h : HForest.anyF isUnformattedImg d = false) : normalizeImagesM d = d := by
  rw [normalizeImagesM]
  apply HForest.transform_noop
  apply HForest.anyF_imp _ isUnformattedImg _ d h
  intro m hm
  simp only [normalizeImgF] at hm
  cases hp : isUnformattedImg m with
  | true => rfl
  | false => rw [hp] at hm; simp at hm

/-- Witness for C4 at a document whose single image is already normalized. -/
theorem normalizeImages_marker_idempotent_witness :
    normalizeImagesM c4markedDoc = c4markedDoc :=
  normalizeImages_marker_idempotent c4markedDoc (by decide)

/-- Counterexample for C4 as stated: running the pipeline twice on its own
output is not the identity — the second run prepends a second
style#ua-reset block to the head (1 reset block after one run, 2 after
two). -/
theorem pipeline_second_run_duplicates_reset_css :
    (processArticleDom pipeTestEnv 0 "https://example.com/" [] [] c4doc).map countUaReset =
      some 1 ∧
    ((processArticleDom pipeTestEnv 0 "https://example.com/" [] [] c4doc).bind
        (processArticleDom pipeTestEnv 0 "https://example.com/" [] [])).map countUaReset =
      some 2 ∧
    (processArticleDom pipeTestEnv 0 "https://example.com/" [] [] c4doc).bind
        (processArticleDom pipeTestEnv 0 "https://example.com/" [] []) ≠
      processArticleDom pipeTestEnv 0 "https://example.com/" [] [] c4doc := by
  refine ⟨by decide, by decide, ?_⟩
  intro h
  have h2 : ((processArticleDom pipeTestEnv 0 "https://example.com/" [] [] c4doc).bind
      (processArticleDom pipeTestEnv 0 "https://example.com/" [] [])).map countUaReset =
      some 2 := by decide
  rw [h] at h2
  have h1 : (processArticleDom pipeTestEnv 0 "https://example.com/" [] [] c4doc).map
      countUaReset = some 1 := by decide
  rw [h1] at h2
  exact absurd h2 (by decide)

theorem pagingLoop_chain_count (E : PipeEnv) {link : Option (Option String)} {cur : String}
    {k : Nat} (hch : FiniteChain E link cur k) :
    ∀ fuel, k ≤ fuel → ∀ acc cnt, ∃ acc2,
      pagingLoop E fuel link cur acc cnt = PagingOut.ok acc2 (cnt + k) := by
  induction hch with
  | link_absent cur => intro fuel _ acc cnt; exact ⟨acc, by simp [pagingLoop]⟩
  | href_missing cur => intro fuel _ acc cnt; exact ⟨acc, by simp [pagingLoop]⟩
  | href_empty cur => intro fuel _ acc cnt; exact ⟨acc, by simp [pagingLoop]⟩
  | step h cur url html k hne hres hfetch hhtml hch2 IH =>
    intro fuel hfuel acc cnt
    cases fuel with
    | zero => omega
    | succ f =>
      obtain ⟨acc2, ha⟩ :=
        IH f (by omega) (acc.append (articleBodyKids (E.parseHtml html))) (cnt + 1)
      refine ⟨acc2, ?_⟩
      simp only [pagingLoop, if_neg hne, hres, hfetch, if_neg hhtml]
      rw [ha]
      have : cnt + 1 + k = cnt + (k + 1) := by omega
      rw [this]

theorem pagingLoop_cycle_never_terminates :
    ∀ fuel cur acc cnt, pagingLoop cycEnv fuel (some (some "next.html")) cur acc cnt =
      PagingOut.fuelOut := by
  intro fuel
  induction fuel with
  | zero => intro cur acc cnt; rfl
  | succ f IH =>
    intro cur acc cnt
    have hstep : pagingLoop cycEnv (f + 1) (some (some "next.html")) cur acc cnt =
        pagingLoop cycEnv f (some (some "next.html")) "next.html"
          (acc.append (articleBodyKids cycNavPage)) (cnt + 1) := rfl
    rw [hstep, IH]

/-- C1 (code bug): following a finite chain of k next-links performs exactly
k fetches and the loop completes (first conjunct); but processPaging has no
maximum-page cap, so on a cyclic next-link chain the while-loop never
terminates — for EVERY fuel bound it is still running (second and third
conjuncts: the loop at the self-referencing page, and processPaging of that
page, never complete). -/
theorem processPaging_chain_exact_but_no_page_cap :
    (∀ (E : PipeEnv) (link : Option (Option String)) (cur : String) (k : Nat),
      FiniteChain E link cur k → ∀ fuel, k ≤ fuel → ∀ acc cnt, ∃ acc2,
        pagingLoop E fuel link cur acc cnt = PagingOut.ok acc2 (cnt + k)) ∧
    (∀ fuel cur acc cnt, pagingLoop cycEnv fuel (some (some "next.html")) cur acc cnt =
      PagingOut.fuelOut) ∧
    (∀ fuel, processPagingM cycEnv fuel cycNavPage "p0" = none) := by
  refine ⟨?_, pagingLoop_cycle_never_terminates, ?_⟩
  · intro E link cur k hch
    exact pagingLoop_chain_count E hch
  · intro fuel
    rw [processPagingM]
    have hnav : navHref cycNavPage = some (some "next.html") := rfl
    rw [hnav, pagingLoop_cycle_never_terminates]

/-- Witness for C1: a concrete two-link chain completes in exactly two
fetches, and the concrete cyclic chain is still running after five
iterations. -/
theorem processPaging_chain_exact_witness :
    (∃ acc2, pagingLoop c1ChainEnv 2 (some (some "u1")) "p0" HForest.nil 0 =
      PagingOut.ok acc2 2) ∧
    pagingLoop cycEnv 5 (some (some "next.html")) "p0" HForest.nil 0 =
      PagingOut.fuelOut := by
  refine ⟨?_, processPaging_chain_exact_but_no_page_cap.2.1 5 "p0" HForest.nil 0⟩
  have hch : FiniteChain c1ChainEnv (some (some "u1")) "p0" 2 := by
    refine FiniteChain.step "u1" "p0" "u1" "h1" 1 (by decide) rfl rfl (by decide) ?_
    have hn1 : navHref (c1ChainEnv.parseHtml "h1") = some (some "u2") := rfl
    rw [hn1]
    refine FiniteChain.step "u2" "u1" "u2" "h2" 0 (by decide) rfl rfl (by decide) ?_
    have hn2 : navHref (c1ChainEnv.parseHtml "h2") = none := rfl
    rw [hn2]
    exact FiniteChain.link_absent "u2"
  obtain ⟨acc2, ha⟩ :=
    processPaging_chain_exact_but_no_page_cap.1 c1ChainEnv (some (some "u1")) "p0" 2 hch 2
      (by omega) HForest.nil 0
  exact ⟨acc2, ha⟩

theorem pagingLoop_failChain (E : PipeEnv) {link : Option (Option String)} {cur : String}
    {cs : HForest} {k : Nat} (hch : FailChain E link cur cs k) :
    ∀ fuel, k ≤ fuel → ∀ acc cnt,
      pagingLoop E fuel link cur acc cnt = PagingOut.ok (acc.append cs) (cnt + k) := by
  induction hch with
  | fail h cur url hne hres hfetch =>
    intro fuel hfuel acc cnt
    cases fuel with
    | zero => omega
    | succ f =>
      rcases hfetch with hf | hf
      · simp only [pagingLoop, if_neg hne, hres, hf]
        rw [HForest.append_nil]
      · simp only [pagingLoop, if_neg hne, hres, hf]
        rw [if_pos trivial, HForest.append_nil]
  | step h cur url html cs k hne hres hfetch hhtml hch2 IH =>
    intro fuel hfuel acc cnt
    cases fuel with
    | zero => omega
    | succ f =>
      simp only [pagingLoop, if_neg hne, hres, hfetch, if_neg hhtml]
      rw [IH f (by omega) (acc.append (articleBodyKids (E.parseHtml html))) (cnt + 1)]
      rw [HForest.append_assoc]
      have : cnt + 1 + k = cnt + (k + 1) := by omega
      rw [this]

/-- C7 (confirmed): when a fetch in the middle of the pagination loop fails
(null or empty), assembly stops and the result document is the input with
exactly the content accumulated from the successfully fetched pages
appended to the first article body (then pager elements removed) — partial
progress is kept, never discarded. -/
theorem processPaging_keeps_partial_on_failure (E : PipeEnv) (fuel : Nat) (d : HForest)
    (pageUrl : String) (cs : HForest) (k : Nat)
    (hch : FailChain E (navHref d) pageUrl cs k) (hfuel : k ≤ fuel) :
    processPagingM E fuel d pageUrl =
      some (HForest.removeAll isInnerPager (appendToMainBody d cs)) := by
  rw [processPagingM, pagingLoop_failChain E hch fuel hfuel HForest.nil 0]
  rfl

/-- Witness for C7: one page fetched successfully, the next fetch fails;
the result is the main document with that page's body children appended. -/
theorem processPaging_keeps_partial_witness :
    processPagingM c7FailEnv 2 c7mainDoc "p0" =
      some (HForest.removeAll isInnerPager
        (appendToMainBody c7mainDoc
          ((articleBodyKids (c7FailEnv.parseHtml "h1")).append HForest.nil))) := by
  apply processPaging_keeps_partial_on_failure c7FailEnv 2 c7mainDoc "p0" _ 2 ?_ (by omega)
  have h0 : navHref c7mainDoc = some (some "u1") := rfl
  rw [h0]
  refine FailChain.step "u1" "p0" "u1" "h1" HForest.nil 1 (by decide) rfl rfl (by decide) ?_
  have h1 : navHref (c7FailEnv.parseHtml "h1") = some (some "u2") := rfl
  rw [h1]
  exact FailChain.fail "u2" "u1" "u2" (by decide) rfl (Or.inl rfl)
